import Mathlib

/-!
Verification of the XRPL TUI core: the state store (`src/state/store.py`,
`src/state/models.py`), the amount value type (`src/xrp_amount.py`), the
connection supervisor (`src/xrpl_client/connection.py`) and the subscription
tracker (`src/xrpl_client/subscriptions.py`), shallowly embedded in Lean.
Python lists become `List`, dicts become `String → Option _` maps, sets become
`List` with membership semantics, exceptions become explicit `Except` results
threaded together with the mutated state, and `datetime.now()` becomes an
explicit `now : Nat` argument.
-/

/-- Embeds the `XRP` dataclass of `src/xrp_amount.py`: an exact amount held as
an integer count of drops (`_drops: int`). Only the integer arithmetic is
embedded; the float display conversions are not used by the store. -/
structure XRP where
  drops : Int
deriving DecidableEq, Repr

/-- Embeds `XRP.from_drops`. -/
def XRP.from_drops (amount : Int) : XRP :=
  XRP.mk amount

/-- Embeds `XRP.__add__`: drop-wise integer addition. -/
def XRP.add (a b : XRP) : XRP :=
  XRP.from_drops (a.drops + b.drops)

/-- Embeds `XRP.__sub__`: drop-wise integer subtraction. -/
def XRP.sub (a b : XRP) : XRP :=
  XRP.from_drops (a.drops - b.drops)

/-- Embeds the `TransactionStatus` enum of `src/state/models.py`. -/
inductive TransactionStatus where
  | pending
  | validated
  | failed
deriving DecidableEq, Repr

/-- Embeds the `WalletSource` enum of `src/state/models.py`. -/
inductive WalletSource where
  | faucet
  | imported
deriving DecidableEq, Repr

/-- External collaborator `xrpl.wallet.Wallet`: only its address is relevant
to the store. -/
structure Wallet where
  address : String
deriving DecidableEq, Repr

/-- Embeds the `WalletInfo` dataclass of `src/state/models.py`. -/
structure WalletInfo where
  wallet : Wallet
  source : WalletSource
  label : String
  created_at : Nat
deriving DecidableEq, Repr

/-- Embeds the `AccountState` dataclass of `src/state/models.py`.
`last_updated` stands for the `datetime` field, abstracted to a tick count. -/
structure AccountState where
  address : String
  balance : XRP
  previous_balance : Option XRP
  sequence : Int
  last_updated : Nat
deriving DecidableEq, Repr

/-- Embeds `AccountState.balance_change`: `None` when there is no previous
balance, otherwise `balance - previous_balance`. -/
def AccountState.balance_change (a : AccountState) : Option XRP :=
  match a.previous_balance with
  | none => none
  | some prev => some (a.balance.sub prev)

/-- Embeds `AccountState.update_balance`: shifts the current balance into
`previous_balance`, installs the new balance, and stamps `last_updated`. -/
def AccountState.update_balance (a : AccountState) (new_balance : XRP) (now : Nat) :
    AccountState :=
  { a with
    previous_balance := some a.balance
    balance := new_balance
    last_updated := now }

/-- Embeds the `TransactionState` dataclass of `src/state/models.py`. -/
structure TransactionState where
  tx_hash : String
  tx_type : String
  status : TransactionStatus
  amount : Option XRP
  source : String
  destination : String
  fee : Option XRP
  ledger_index : Option Int
  timestamp : Nat
  error_message : Option String
deriving DecidableEq, Repr

/-- Embeds `TransactionState.mark_validated`. -/
def TransactionState.mark_validated (tx : TransactionState) (ledger_index : Int) :
    TransactionState :=
  { tx with
    status := TransactionStatus.validated
    ledger_index := some ledger_index }

/-- Embeds `TransactionState.mark_failed`. -/
def TransactionState.mark_failed (tx : TransactionState) (error : String) :
    TransactionState :=
  { tx with
    status := TransactionStatus.failed
    error_message := some error }

/-- Embeds the `LedgerState` dataclass of `src/state/models.py`; the close
time is abstracted to a tick count. -/
structure LedgerState where
  ledger_index : Int
  ledger_hash : String
  close_time : Option Nat
  txn_count : Int
  reserve_base : XRP
  reserve_increment : XRP
deriving DecidableEq, Repr

/-- Embeds the `XRPLStateStore` dataclass of `src/state/store.py`. The two
Python dicts (`wallets`, `accounts`) are embedded as maps from address to an
optional entry. -/
structure XRPLStateStore where
  connection_status : String
  ledger : LedgerState
  wallets : String → Option WalletInfo
  accounts : String → Option AccountState
  recent_transactions : List TransactionState
  pending_transactions : List TransactionState
  max_recent_transactions : Nat

/-- The store built from the dataclass field defaults: disconnected, empty
ledger, no wallets/accounts/transactions, history capacity 50. -/
def emptyStore : XRPLStateStore :=
  { connection_status := "disconnected"
    ledger :=
      { ledger_index := 0
        ledger_hash := ""
        close_time := none
        txn_count := 0
        reserve_base := XRP.from_drops 10000000
        reserve_increment := XRP.from_drops 2000000 }
    wallets := fun _ => none
    accounts := fun _ => none
    recent_transactions := []
    pending_transactions := []
    max_recent_transactions := 50 }

/-- Embeds `XRPLStateStore.update_account_balance`: shift-and-replace when the
account exists, otherwise create a fresh `AccountState` with no previous
balance (defaults: sequence 0, created now). -/
def XRPLStateStore.update_account_balance (s : XRPLStateStore) (address : String)
    (balance : XRP) (now : Nat) : XRPLStateStore :=
  match s.accounts address with
  | some acct =>
      { s with accounts := fun a =>
          if a = address then some (acct.update_balance balance now) else s.accounts a }
  | none =>
      { s with accounts := fun a =>
          if a = address then some (AccountState.mk address balance none 0 now)
          else s.accounts a }

/-- Embeds `XRPLStateStore.add_pending_transaction`: builds a Pending record
and appends it to `pending_transactions`; returns the updated store together
with the created record (the Python method returns the record). -/
def XRPLStateStore.add_pending_transaction (s : XRPLStateStore)
    (tx_hash tx_type : String) (amount : Option XRP) (source destination : String)
    (fee : Option XRP) (now : Nat) : XRPLStateStore × TransactionState :=
  let tx : TransactionState :=
    { tx_hash := tx_hash
      tx_type := tx_type
      status := TransactionStatus.pending
      amount := amount
      source := source
      destination := destination
      fee := fee
      ledger_index := none
      timestamp := now
      error_message := none }
  ({ s with pending_transactions := s.pending_transactions ++ [tx] }, tx)

/-- Embeds `XRPLStateStore.mark_transaction_validated`: find the first pending
record with the given hash; if present, mark it validated, remove it from the
pending list, insert it at the front of `recent_transactions` and trim that
list to `max_recent_transactions` entries; otherwise do nothing. The Python
loop mutates the found record in place and then `remove`s it; since every
earlier pending record has a different hash, that removes exactly the first
hash match, which `eraseP` captures. -/
def XRPLStateStore.mark_transaction_validated (s : XRPLStateStore)
    (tx_hash : String) (ledger_index : Int) : XRPLStateStore :=
  match s.pending_transactions.find? (fun tx => tx.tx_hash == tx_hash) with
  | none => s
  | some tx =>
      let tx' := tx.mark_validated ledger_index
      let pending' := s.pending_transactions.eraseP (fun t => t.tx_hash == tx_hash)
      let recent' := tx' :: s.recent_transactions
      let recent'' :=
        if s.max_recent_transactions < recent'.length then
          recent'.take s.max_recent_transactions
        else recent'
      { s with
        pending_transactions := pending'
        recent_transactions := recent'' }

/-- Embeds `XRPLStateStore.mark_transaction_failed`: find the first pending
record with the given hash; if present, mark it failed, remove it from the
pending list and insert it at the front of `recent_transactions`; otherwise do
nothing. Note that, unlike `mark_transaction_validated`, the Python code does
NOT trim `recent_transactions` here. -/
def XRPLStateStore.mark_transaction_failed (s : XRPLStateStore)
    (tx_hash : String) (error : String) : XRPLStateStore :=
  match s.pending_transactions.find? (fun tx => tx.tx_hash == tx_hash) with
  | none => s
  | some tx =>
      let tx' := tx.mark_failed error
      let pending' := s.pending_transactions.eraseP (fun t => t.tx_hash == tx_hash)
      { s with
        pending_transactions := pending'
        recent_transactions := tx' :: s.recent_transactions }

/-- Embeds `XRPLStateStore.add_received_transaction`: build an
already-Validated record, insert it at the front of `recent_transactions`,
trim to capacity, and return it alongside the updated store. -/
def XRPLStateStore.add_received_transaction (s : XRPLStateStore)
    (tx_hash tx_type : String) (ledger_index : Int) (amount : Option XRP)
    (source destination : String) (fee : Option XRP) (now : Nat) :
    XRPLStateStore × TransactionState :=
  let tx : TransactionState :=
    { tx_hash := tx_hash
      tx_type := tx_type
      status := TransactionStatus.validated
      amount := amount
      source := source
      destination := destination
      fee := fee
      ledger_index := some ledger_index
      timestamp := now
      error_message := none }
  let recent' := tx :: s.recent_transactions
  let recent'' :=
    if s.max_recent_transactions < recent'.length then
      recent'.take s.max_recent_transactions
    else recent'
  ({ s with recent_transactions := recent'' }, tx)

/-- The hashes of all records the store holds, across the pending set and the
recent-history sequence. -/
def txKeys (s : XRPLStateStore) : List String :=
  (s.pending_transactions ++ s.recent_transactions).map TransactionState.tx_hash

/-- Embeds the `ConnectionState` enum of `src/xrpl_client/connection.py`. -/
inductive ConnectionState where
  | disconnected
  | connecting
  | connected
  | reconnecting
deriving DecidableEq, Repr

/-- Embeds `xrpl.models.StreamParameter` (the stream kinds this code
subscribes to). -/
inductive StreamParameter where
  | ledger
  | transactions
  | transactionsProposed
deriving DecidableEq, Repr

/-- Embeds the `xrpl.models` request objects this code builds:
`Subscribe(streams=…, accounts=…)` and `Unsubscribe(streams=…, accounts=…)`. -/
inductive Request where
  | subscribe (streams : List StreamParameter) (accounts : List String)
  | unsubscribe (streams : List StreamParameter) (accounts : List String)
deriving DecidableEq, Repr

/-- The errors the supervisor raises to callers: `RuntimeError("Not connected
to XRPL")`. -/
inductive XRPLError where
  | notConnected
deriving DecidableEq, Repr

/-- Embeds the `XRPLConnectionManager` dataclass of
`src/xrpl_client/connection.py`. `client_open` abstracts
`_client is not None and _client.is_open()`; `transport_sent` is the trace of
requests handed to the underlying transport (`_client.send` /
`_client.request`), so that "issues a network call" is observable.
The `_message_callbacks` list is modelled separately (see
`MessageCallback`). -/
structure XRPLConnectionManager where
  url : String
  max_reconnect_delay : ℚ
  client_open : Bool
  state : ConnectionState
  reconnect_delay : ℚ
  should_run : Bool
  pending_subscriptions : List Request
  transport_sent : List Request

/-- The manager built from the dataclass field defaults. -/
def defaultConnectionManager : XRPLConnectionManager :=
  { url := "wss://s.altnet.rippletest.net:51233"
    max_reconnect_delay := 30
    client_open := false
    state := ConnectionState.disconnected
    reconnect_delay := 1
    should_run := false
    pending_subscriptions := []
    transport_sent := [] }

/-- Embeds the `is_connected` property. -/
def XRPLConnectionManager.is_connected (m : XRPLConnectionManager) : Bool :=
  m.client_open

/-- Embeds `XRPLConnectionManager.send`: raise `NotConnected` if no transport
is open (before touching any state); otherwise, when `track_subscription` is
set, append the request to `_pending_subscriptions`, then hand the request to
the transport. -/
def XRPLConnectionManager.send (m : XRPLConnectionManager) (request : Request)
    (track_subscription : Bool) : XRPLConnectionManager × Except XRPLError Unit :=
  if m.is_connected then
    let m' :=
      if track_subscription then
        { m with pending_subscriptions := m.pending_subscriptions ++ [request] }
      else m
    ({ m' with transport_sent := m'.transport_sent ++ [request] }, Except.ok ())
  else (m, Except.error XRPLError.notConnected)

/-- Embeds `XRPLConnectionManager.request`: raise `NotConnected` if no
transport is open; otherwise perform the correlated exchange on the transport
(the response itself is external and not modelled). -/
def XRPLConnectionManager.request (m : XRPLConnectionManager) (request : Request) :
    XRPLConnectionManager × Except XRPLError Unit :=
  if m.is_connected then
    ({ m with transport_sent := m.transport_sent ++ [request] }, Except.ok ())
  else (m, Except.error XRPLError.notConnected)

/-- Embeds `XRPLConnectionManager.add_subscription`. -/
def XRPLConnectionManager.add_subscription (m : XRPLConnectionManager)
    (request : Request) : XRPLConnectionManager :=
  { m with pending_subscriptions := m.pending_subscriptions ++ [request] }

/-- Embeds `XRPLConnectionManager.clear_subscriptions`. -/
def XRPLConnectionManager.clear_subscriptions (m : XRPLConnectionManager) :
    XRPLConnectionManager :=
  { m with pending_subscriptions := [] }

/-- Embeds `XRPLConnectionManager._restore_subscriptions`: iterate over the
replay list and, whenever the transport is open, resend each remembered
request verbatim. -/
def XRPLConnectionManager.restore_subscriptions (m : XRPLConnectionManager) :
    XRPLConnectionManager :=
  m.pending_subscriptions.foldl
    (fun acc r =>
      if acc.client_open then { acc with transport_sent := acc.transport_sent ++ [r] }
      else acc)
    m

/-- One iteration of the `connect()` supervisor loop can end in one of two
ways that reach the `except` handler of `connect()`:
either `_connect_once` raised before the transport was established
(`openFailed`), or the transport was established — which resets
`_reconnect_delay` to 1 — and the connection later raised
(`establishedThenLost`). -/
inductive AttemptOutcome where
  | openFailed
  | establishedThenLost
deriving DecidableEq, Repr

/-- Embeds one pass of the `while self._should_run` loop of
`XRPLConnectionManager.connect` that ends in the `except` handler: transition
to Reconnecting, sleep the current `_reconnect_delay` (the returned rational),
then double it capped at `max_reconnect_delay`. When the attempt had
established a connection first (`establishedThenLost`), `_connect_once`
already reset `_reconnect_delay` to 1, so the handler sleeps 1 and doubles
from 1. -/
def XRPLConnectionManager.connect_iteration (m : XRPLConnectionManager)
    (o : AttemptOutcome) : ℚ × XRPLConnectionManager :=
  match o with
  | AttemptOutcome.openFailed =>
      (m.reconnect_delay,
       { m with
         state := ConnectionState.reconnecting
         reconnect_delay := min (m.reconnect_delay * 2) m.max_reconnect_delay })
  | AttemptOutcome.establishedThenLost =>
      (1,
       { m with
         state := ConnectionState.reconnecting
         reconnect_delay := min ((1 : ℚ) * 2) m.max_reconnect_delay })

/-- The sleeps performed by the reconnect loop over a trace of attempt
outcomes. -/
def XRPLConnectionManager.connect_sleeps (m : XRPLConnectionManager) :
    List AttemptOutcome → List ℚ
  | [] => []
  | o :: rest =>
      (m.connect_iteration o).1 :: ((m.connect_iteration o).2.connect_sleeps rest)

/-- Embeds the initialisation performed at the top of
`XRPLConnectionManager.connect`: `_should_run = True`,
`_reconnect_delay = 1.0`. -/
def XRPLConnectionManager.connect_init (m : XRPLConnectionManager) :
    XRPLConnectionManager :=
  { m with should_run := true, reconnect_delay := 1 }

/-- Embeds a registered message callback (`on_message`). Running it on a
message yields the effects it performs (an abstract event trace) and either a
normal return or a raised exception, mirroring a Python coroutine that may
throw. -/
structure MessageCallback where
  run : String → List String × Except String Unit

/-- Embeds `XRPLConnectionManager._dispatch_message` applied to the
registered `_message_callbacks` list: call each callback in registration
order on the message; each call sits in a `try`/`except` whose handler
swallows the outcome (`r` below is dropped) and continues with the remaining
callbacks. -/
def XRPLConnectionManager.dispatch_message :
    List MessageCallback → String → List String × Except String Unit
  | [], _ => ([], Except.ok ())
  | cb :: rest, message =>
      ((cb.run message).1 ++ (XRPLConnectionManager.dispatch_message rest message).1,
       (XRPLConnectionManager.dispatch_message rest message).2)

/-- Embeds the read loop of `_connect_once` (`async for message in client`)
over a finite list of inbound frames: each frame is dispatched to all
registered callbacks; the accumulated event trace is returned. -/
def XRPLConnectionManager.process_messages (callbacks : List MessageCallback)
    (messages : List String) : List String :=
  messages.foldl
    (fun log message =>
      log ++ (XRPLConnectionManager.dispatch_message callbacks message).1)
    []

/-- Embeds the `SubscriptionManager` dataclass of
`src/xrpl_client/subscriptions.py`. The two Python `set` fields are embedded
as lists read through membership only. -/
structure SubscriptionManager where
  connection : XRPLConnectionManager
  subscribed_streams : List StreamParameter
  subscribed_accounts : List String

/-- Embeds `SubscriptionManager._subscribe_stream`: no-op for an
already-subscribed stream; otherwise send one `Subscribe(streams=[stream])`
marked for replay and record the stream. A raised `NotConnected` propagates
before the local set is touched. -/
def SubscriptionManager.subscribe_stream (m : SubscriptionManager)
    (stream : StreamParameter) : SubscriptionManager × Except XRPLError Unit :=
  if stream ∈ m.subscribed_streams then (m, Except.ok ())
  else
    let (conn, res) := m.connection.send (Request.subscribe [stream] []) true
    match res with
    | Except.ok _ =>
        ({ m with
           connection := conn
           subscribed_streams := m.subscribed_streams ++ [stream] },
         Except.ok ())
    | Except.error e => ({ m with connection := conn }, Except.error e)

/-- Embeds `SubscriptionManager.unsubscribe_stream`: no-op for a stream not
currently subscribed; otherwise send one `Unsubscribe(streams=[stream])`
(not replay-tracked) and discard the stream from the local set. -/
def SubscriptionManager.unsubscribe_stream (m : SubscriptionManager)
    (stream : StreamParameter) : SubscriptionManager × Except XRPLError Unit :=
  if stream ∉ m.subscribed_streams then (m, Except.ok ())
  else
    let (conn, res) := m.connection.send (Request.unsubscribe [stream] []) false
    match res with
    | Except.ok _ =>
        ({ m with
           connection := conn
           subscribed_streams := m.subscribed_streams.filter (fun s => s ≠ stream) },
         Except.ok ())
    | Except.error e => ({ m with connection := conn }, Except.error e)

/-- Embeds `SubscriptionManager.subscribe_accounts`: filter out the addresses
already subscribed; if nothing new remains, return without any network call;
otherwise send the new addresses as one combined `Subscribe(accounts=…)`
request marked for replay and record them. -/
def SubscriptionManager.subscribe_accounts (m : SubscriptionManager)
    (addresses : List String) : SubscriptionManager × Except XRPLError Unit :=
  let new_addresses := addresses.filter (fun addr => addr ∉ m.subscribed_accounts)
  if new_addresses.isEmpty then (m, Except.ok ())
  else
    let (conn, res) := m.connection.send (Request.subscribe [] new_addresses) true
    match res with
    | Except.ok _ =>
        ({ m with
           connection := conn
           subscribed_accounts := m.subscribed_accounts ++ new_addresses },
         Except.ok ())
    | Except.error e => ({ m with connection := conn }, Except.error e)

/-- Embeds `SubscriptionManager.unsubscribe_account`: no-op for an address not
currently subscribed; otherwise send one `Unsubscribe(accounts=[address])`
(not replay-tracked) and discard the address from the local set. -/
def SubscriptionManager.unsubscribe_account (m : SubscriptionManager)
    (address : String) : SubscriptionManager × Except XRPLError Unit :=
  if address ∉ m.subscribed_accounts then (m, Except.ok ())
  else
    let (conn, res) := m.connection.send (Request.unsubscribe [] [address]) false
    match res with
    | Except.ok _ =>
        ({ m with
           connection := conn
           subscribed_accounts := m.subscribed_accounts.filter (fun a => a ≠ address) },
         Except.ok ())
    | Except.error e => ({ m with connection := conn }, Except.error e)

/-- Embeds `SubscriptionManager.unsubscribe_all`: send one unsubscribe for all
held streams (when any) and clear that set, then likewise for accounts, then
clear the supervisor's replay list. A raised `NotConnected` propagates and
aborts the remaining steps, as in Python. -/
def SubscriptionManager.unsubscribe_all (m : SubscriptionManager) :
    SubscriptionManager × Except XRPLError Unit :=
  let step1 : SubscriptionManager × Except XRPLError Unit :=
    if m.subscribed_streams.isEmpty then (m, Except.ok ())
    else
      let (conn, res) := m.connection.send (Request.unsubscribe m.subscribed_streams []) false
      match res with
      | Except.ok _ =>
          ({ m with connection := conn, subscribed_streams := [] }, Except.ok ())
      | Except.error e => ({ m with connection := conn }, Except.error e)
  match step1 with
  | (m1, Except.error e) => (m1, Except.error e)
  | (m1, Except.ok _) =>
      let step2 : SubscriptionManager × Except XRPLError Unit :=
        if m1.subscribed_accounts.isEmpty then (m1, Except.ok ())
        else
          let (conn, res) :=
            m1.connection.send (Request.unsubscribe [] m1.subscribed_accounts) false
          match res with
          | Except.ok _ =>
              ({ m1 with connection := conn, subscribed_accounts := [] }, Except.ok ())
          | Except.error e => ({ m1 with connection := conn }, Except.error e)
      match step2 with
      | (m2, Except.error e) => (m2, Except.error e)
      | (m2, Except.ok _) =>
          ({ m2 with connection := m2.connection.clear_subscriptions }, Except.ok ())

/-- The store obtained by receiving one validated transaction with hash "H":
its record lives only in recent-history, not in the pending set. -/
def recentOnlyStore : XRPLStateStore :=
  (emptyStore.add_received_transaction "H" "Payment" 1 none "" "" none 0).1

/-- Claim C6: for every store and every hash h absent from the pending set,
`mark_transaction_validated` and `mark_transaction_failed` are no-ops: they
return the store unchanged (so they never create, duplicate or mutate any
record — in particular not one that is only in recent-history). -/
theorem c6_mark_missing_is_noop (s : XRPLStateStore) (h : String) (idx : Int)
    (err : String) (hp : ∀ tx ∈ s.pending_transactions, tx.tx_hash ≠ h) :
    s.mark_transaction_validated h idx = s ∧ s.mark_transaction_failed h err = s := by
  have hfind : s.pending_transactions.find? (fun tx => tx.tx_hash == h) = none := by
    rw [List.find?_eq_none]
    intro tx htx
    simpa using hp tx htx
  constructor
  · simp [XRPLStateStore.mark_transaction_validated, hfind]
  · simp [XRPLStateStore.mark_transaction_failed, hfind]

/-- Witness for C6 at a concrete store whose only record with hash "H" sits in
recent-history. -/
theorem c6_mark_missing_is_noop_witness :
    (∀ tx ∈ recentOnlyStore.pending_transactions, tx.tx_hash ≠ "H") ∧
    recentOnlyStore.mark_transaction_validated "H" 2 = recentOnlyStore ∧
    recentOnlyStore.mark_transaction_failed "H" "timeout" = recentOnlyStore := by
  have hp : ∀ tx ∈ recentOnlyStore.pending_transactions, tx.tx_hash ≠ "H" := by decide
  exact ⟨hp, (c6_mark_missing_is_noop recentOnlyStore "H" 2 "timeout" hp).1,
    (c6_mark_missing_is_noop recentOnlyStore "H" 2 "timeout" hp).2⟩

/-- Claim C5: whenever no transport is open, `send` and `request` fail
synchronously with the `NotConnected` error and return the supervisor state
unchanged — in particular the replay list `pending_subscriptions` is
untouched, so nothing is queued for later. -/
theorem c5_send_request_not_connected (m : XRPLConnectionManager) (r : Request)
    (track : Bool) (h : m.is_connected = false) :
    m.send r track = (m, Except.error XRPLError.notConnected) ∧
    m.request r = (m, Except.error XRPLError.notConnected) := by
  constructor <;>
    simp [XRPLConnectionManager.send, XRPLConnectionManager.request, h]

/-- Witness for C5 at the default (disconnected) manager. -/
theorem c5_send_request_not_connected_witness :
    defaultConnectionManager.is_connected = false ∧
    defaultConnectionManager.send (Request.subscribe [StreamParameter.ledger] []) true =
      (defaultConnectionManager, Except.error XRPLError.notConnected) ∧
    defaultConnectionManager.request (Request.subscribe [StreamParameter.ledger] []) =
      (defaultConnectionManager, Except.error XRPLError.notConnected) := by
  refine ⟨rfl, ?_, ?_⟩
  · exact (c5_send_request_not_connected defaultConnectionManager
      (Request.subscribe [StreamParameter.ledger] []) true rfl).1
  · exact (c5_send_request_not_connected defaultConnectionManager
      (Request.subscribe [StreamParameter.ledger] []) true rfl).2

/-- Reading back the updated address after `update_account_balance` on an
existing account yields the shifted entry. -/
theorem update_account_balance_some (s : XRPLStateStore) (address : String)
    (b : XRP) (n : Nat) (acct : AccountState) (h : s.accounts address = some acct) :
    (s.update_account_balance address b n).accounts address =
      some (acct.update_balance b n) := by
  simp [XRPLStateStore.update_account_balance, h]

/-- Reading back the updated address after `update_account_balance` on an
unknown account yields the freshly created entry. -/
theorem update_account_balance_none (s : XRPLStateStore) (address : String)
    (b : XRP) (n : Nat) (h : s.accounts address = none) :
    (s.update_account_balance address b n).accounts address =
      some (AccountState.mk address b none 0 n) := by
  simp [XRPLStateStore.update_account_balance, h]

/-- Claim C7: `update_account_balance` shifts current→previous for an existing
account and creates a fresh `AccountState` (no previous balance) otherwise;
two sequential calls with balances b1 then b2 leave previous = b1, balance =
b2, and the balance change is exactly b2 − b1 in integer drops. -/
theorem c7_update_account_balance (s : XRPLStateStore) (address : String)
    (b1 b2 : XRP) (n1 n2 : Nat) :
    (∀ acct, s.accounts address = some acct →
      (s.update_account_balance address b1 n1).accounts address =
        some (acct.update_balance b1 n1)) ∧
    (s.accounts address = none →
      (s.update_account_balance address b1 n1).accounts address =
        some (AccountState.mk address b1 none 0 n1)) ∧
    (∃ acct2,
      ((s.update_account_balance address b1 n1).update_account_balance address b2
          n2).accounts address = some acct2 ∧
      acct2.previous_balance = some b1 ∧ acct2.balance = b2 ∧
      acct2.balance_change = some (XRP.from_drops (b2.drops - b1.drops))) := by
  refine ⟨?_, ?_, ?_⟩
  · intro acct hacct
    exact update_account_balance_some s address b1 n1 acct hacct
  · intro hnone
    exact update_account_balance_none s address b1 n1 hnone
  · have h1 : ∃ a1, (s.update_account_balance address b1 n1).accounts address = some a1 ∧
        a1.balance = b1 := by
      cases hacc : s.accounts address with
      | none => exact ⟨_, update_account_balance_none s address b1 n1 hacc, rfl⟩
      | some acct => exact ⟨_, update_account_balance_some s address b1 n1 acct hacc, rfl⟩
    obtain ⟨a1, ha1, hb1⟩ := h1
    refine ⟨a1.update_balance b2 n2, ?_, ?_, rfl, ?_⟩
    · exact update_account_balance_some _ address b2 n2 a1 ha1
    · simp [AccountState.update_balance, hb1]
    · simp [AccountState.balance_change, AccountState.update_balance, hb1, XRP.sub]

/-- Witness for C7: the spec's own example, 100,000,000 then 100,500,000 drops
on a previously unknown account, yielding a +500,000 drop change. -/
theorem c7_update_account_balance_witness :
    emptyStore.accounts "rAlice" = none ∧
    ((emptyStore.update_account_balance "rAlice" (XRP.from_drops 100000000) 0).accounts
        "rAlice" = some (AccountState.mk "rAlice" (XRP.from_drops 100000000) none 0 0)) ∧
    (∃ acct2,
      ((emptyStore.update_account_balance "rAlice" (XRP.from_drops 100000000)
            0).update_account_balance "rAlice" (XRP.from_drops 100500000) 1).accounts
          "rAlice" = some acct2 ∧
      acct2.previous_balance = some (XRP.from_drops 100000000) ∧
      acct2.balance = XRP.from_drops 100500000 ∧
      acct2.balance_change = some (XRP.from_drops 500000)) := by
  have h := c7_update_account_balance emptyStore "rAlice" (XRP.from_drops 100000000)
    (XRP.from_drops 100500000) 0 1
  refine ⟨rfl, h.2.1 rfl, ?_⟩
  obtain ⟨acct2, ha, hprev, hbal, hchange⟩ := h.2.2
  refine ⟨acct2, ha, hprev, hbal, ?_⟩
  rw [hchange]
  norm_num [XRP.from_drops]

/-- Accumulating fold over a list, appending `f x` at each step, is the
concatenation of all the `f x`. -/
theorem foldl_append_eq_join {α β : Type} (f : α → List β) (l : List α)
    (init : List β) :
    l.foldl (fun acc x => acc ++ f x) init = init ++ (l.map f).flatten := by
  induction l generalizing init with
  | nil => simp
  | cons x xs ih => simp [ih, List.append_assoc]

/-- Claim C9: dispatch delivers every message to all registered callbacks in
registration order — the event trace is exactly the concatenation of each
callback's own effects, independent of whether any callback raised — dispatch
itself always returns normally (exceptions are swallowed, never propagated to
the caller), and the read loop therefore processes every frame. -/
theorem c9_dispatch_isolated (callbacks : List MessageCallback) (message : String) :
    (XRPLConnectionManager.dispatch_message callbacks message).1 =
      (callbacks.map (fun cb => (cb.run message).1)).flatten ∧
    (XRPLConnectionManager.dispatch_message callbacks message).2 = Except.ok () ∧
    (∀ messages : List String,
      XRPLConnectionManager.process_messages callbacks messages =
        (messages.map (fun msg =>
          (XRPLConnectionManager.dispatch_message callbacks msg).1)).flatten) := by
  refine ⟨?_, ?_, ?_⟩
  · induction callbacks with
    | nil => simp [XRPLConnectionManager.dispatch_message]
    | cons cb rest ih => simp [XRPLConnectionManager.dispatch_message, ih]
  · induction callbacks with
    | nil => rfl
    | cons cb rest ih => simp [XRPLConnectionManager.dispatch_message, ih]
  · intro messages
    simpa using foldl_append_eq_join
      (fun msg => (XRPLConnectionManager.dispatch_message callbacks msg).1) messages []

/-- A store reached through the public operations alone: 50 received
(validated) transactions fill recent-history to capacity, and one pending
transaction "P" awaits its outcome. -/
def historyOverflowStore : XRPLStateStore :=
  ((List.range 50).foldl
    (fun st k => (st.add_received_transaction (toString k) "Payment" 1 none "" "" none 0).1)
    emptyStore).add_pending_transaction "P" "Payment" none "" "" none 0 |>.1

set_option maxRecDepth 4000 in
/-- Claim C2, evaluated at the failing input: with recent-history already at
its capacity of 50, `mark_transaction_failed` on the pending hash "P" inserts
at the front WITHOUT trimming, leaving 51 entries — exceeding
`max_recent_transactions`. (`mark_transaction_validated` and
`add_received_transaction` do trim; the trim is missing only in
`mark_transaction_failed`.) -/
theorem c2_mark_failed_does_not_trim :
    historyOverflowStore.max_recent_transactions = 50 ∧
    historyOverflowStore.recent_transactions.length = 50 ∧
    (historyOverflowStore.mark_transaction_failed "P" "timeout").recent_transactions.length
      = 51 := by
  refine ⟨rfl, ?_, ?_⟩ <;> decide

/-- Claim C1, counterexample: the claim quantifies over every store, but a
store that already holds a pending record with hash "A" (itself reachable by
one `add_pending_transaction`) breaks it: after `add_pending_transaction`
creates a second record with hash "A" and `mark_transaction_validated "A" 5`
runs, hash "A" still appears once in the pending set (the claim requires zero
times) — the mark moved only the first matching record. -/
theorem c1_counterexample :
    (((((emptyStore.add_pending_transaction "A" "Payment" none "" "" none
          0).1.add_pending_transaction "A" "Payment" none "" "" none
          0).1.mark_transaction_validated "A" 5).pending_transactions.countP
        (fun t => t.tx_hash == "A")) = 1) ∧
    (((((emptyStore.add_pending_transaction "A" "Payment" none "" "" none
          0).1.add_pending_transaction "A" "Payment" none "" "" none
          0).1.mark_transaction_validated "A" 5).recent_transactions.countP
        (fun t => t.tx_hash == "A")) = 1) := by
  constructor <;> decide

/-- Claim C1 (amended): for every store with the default history capacity 50
in which no record with hash h exists yet (neither pending nor in
recent-history), `add_pending_transaction` creating a record with hash h
followed by `mark_transaction_validated h idx` leaves hash h appearing zero
times in the pending set and exactly once in recent-history — at the front,
with status Validated and ledger index idx. -/
theorem c1_validated_lifecycle (s : XRPLStateStore) (h ty : String) (idx : Int)
    (now : Nat) (hmax : s.max_recent_transactions = 50)
    (hpend : ∀ tx ∈ s.pending_transactions, tx.tx_hash ≠ h)
    (hrec : ∀ tx ∈ s.recent_transactions, tx.tx_hash ≠ h) :
    ((s.add_pending_transaction h ty none "" "" none now).1.mark_transaction_validated
        h idx).pending_transactions.countP (fun t => t.tx_hash == h) = 0 ∧
    ((s.add_pending_transaction h ty none "" "" none now).1.mark_transaction_validated
        h idx).recent_transactions.countP (fun t => t.tx_hash == h) = 1 ∧
    (∃ tx0 rest,
      ((s.add_pending_transaction h ty none "" "" none now).1.mark_transaction_validated
          h idx).recent_transactions = tx0 :: rest ∧
      tx0.tx_hash = h ∧ tx0.status = TransactionStatus.validated ∧
      tx0.ledger_index = some idx) := by
  have hnopend : ∀ b ∈ s.pending_transactions,
      ¬ ((fun t : TransactionState => t.tx_hash == h) b = true) := by
    intro b hb
    simpa using hpend b hb
  have hfind :
      (s.add_pending_transaction h ty none "" "" none now).1.pending_transactions.find?
        (fun t => t.tx_hash == h) =
        some (s.add_pending_transaction h ty none "" "" none now).2 := by
    show (s.pending_transactions ++
        [(s.add_pending_transaction h ty none "" "" none now).2]).find?
        (fun t => t.tx_hash == h) = _
    rw [List.find?_append, List.find?_eq_none.mpr hnopend]
    simp [XRPLStateStore.add_pending_transaction]
  have hpend2 :
      ((s.add_pending_transaction h ty none "" "" none now).1.mark_transaction_validated
        h idx).pending_transactions = s.pending_transactions := by
    simp only [XRPLStateStore.mark_transaction_validated, hfind]
    show (s.pending_transactions ++
        [(s.add_pending_transaction h ty none "" "" none now).2]).eraseP
        (fun t => t.tx_hash == h) = _
    rw [List.eraseP_append_right _ hnopend]
    simp [XRPLStateStore.add_pending_transaction]
  have hrec2 : ∃ rest,
      ((s.add_pending_transaction h ty none "" "" none now).1.mark_transaction_validated
        h idx).recent_transactions =
        ((s.add_pending_transaction h ty none "" "" none now).2.mark_validated idx)
          :: rest ∧
      ∀ t ∈ rest, t ∈ s.recent_transactions := by
    simp only [XRPLStateStore.mark_transaction_validated, hfind]
    by_cases hlen :
        (s.add_pending_transaction h ty none "" "" none now).1.max_recent_transactions <
          ((s.add_pending_transaction h ty none "" "" none now).2.mark_validated idx ::
            (s.add_pending_transaction h ty none "" "" none
              now).1.recent_transactions).length
    · rw [if_pos hlen]
      have h50 :
          (s.add_pending_transaction h ty none "" "" none now).1.max_recent_transactions
            = 49 + 1 := hmax
      rw [h50, List.take_succ_cons]
      exact ⟨_, rfl, fun t ht => List.take_subset _ _ ht⟩
    · rw [if_neg hlen]
      exact ⟨_, rfl, fun t ht => ht⟩
  obtain ⟨rest, hr, hsub⟩ := hrec2
  refine ⟨?_, ?_, ?_⟩
  · rw [hpend2]
    exact List.countP_eq_zero.mpr hnopend
  · rw [hr, List.countP_cons]
    have hrest : rest.countP (fun t => t.tx_hash == h) = 0 :=
      List.countP_eq_zero.mpr (fun t ht => by simpa using hrec t (hsub t ht))
    have hhead : ((s.add_pending_transaction h ty none "" "" none
        now).2.mark_validated idx).tx_hash == h := by
      simp [XRPLStateStore.add_pending_transaction, TransactionState.mark_validated]
    rw [hrest, if_pos hhead]
  · exact ⟨_, rest, hr, rfl, rfl, rfl⟩

/-- Witness for C1 at the empty store with hash "A". -/
theorem c1_validated_lifecycle_witness :
    emptyStore.max_recent_transactions = 50 ∧
    (∀ tx ∈ emptyStore.pending_transactions, tx.tx_hash ≠ "A") ∧
    (∀ tx ∈ emptyStore.recent_transactions, tx.tx_hash ≠ "A") ∧
    (((emptyStore.add_pending_transaction "A" "Payment" none "" "" none
        0).1.mark_transaction_validated "A" 7).pending_transactions.countP
      (fun t => t.tx_hash == "A") = 0 ∧
    ((emptyStore.add_pending_transaction "A" "Payment" none "" "" none
        0).1.mark_transaction_validated "A" 7).recent_transactions.countP
      (fun t => t.tx_hash == "A") = 1 ∧
    (∃ tx0 rest,
      ((emptyStore.add_pending_transaction "A" "Payment" none "" "" none
          0).1.mark_transaction_validated "A" 7).recent_transactions = tx0 :: rest ∧
      tx0.tx_hash = "A" ∧ tx0.status = TransactionStatus.validated ∧
      tx0.ledger_index = some 7)) :=
  ⟨rfl, by decide, by decide,
    c1_validated_lifecycle emptyStore "A" "Payment" 7 0 rfl (by decide) (by decide)⟩

/-- Doubling a delay already capped at 30 and re-capping equals capping the
doubled uncapped delay. -/
theorem min_double_cap (j : ℕ) :
    min (min ((2 : ℚ) ^ j) 30 * 2) 30 = min ((2 : ℚ) ^ (j + 1)) 30 := by
  rcases le_total ((2 : ℚ) ^ j) 30 with hj | hj
  · rw [min_eq_left hj, ← pow_succ]
  · have h2 : (30 : ℚ) ≤ 2 ^ (j + 1) :=
      le_trans hj (pow_le_pow_right₀ (by norm_num) (Nat.le_succ j))
    rw [min_eq_right hj, min_eq_right h2, min_eq_right (by norm_num : (30 : ℚ) ≤ 30 * 2)]

/-- With the cap at 30, the k-th sleep of an uninterrupted run of failed
connection attempts starting from delay `min (2^j) 30` is `min (2^(j+k)) 30`. -/
theorem connect_sleeps_formula (k : ℕ) :
    ∀ (n : ℕ) (m : XRPLConnectionManager) (j : ℕ),
      m.max_reconnect_delay = 30 → m.reconnect_delay = min ((2 : ℚ) ^ j) 30 → k < n →
      (m.connect_sleeps (List.replicate n AttemptOutcome.openFailed))[k]? =
        some (min ((2 : ℚ) ^ (j + k)) 30) := by
  induction k with
  | zero =>
      intro n m j hmax hd hk
      obtain ⟨n', rfl⟩ : ∃ n', n = n' + 1 := ⟨n - 1, by omega⟩
      rw [List.replicate_succ]
      simp [XRPLConnectionManager.connect_sleeps, XRPLConnectionManager.connect_iteration,
        hd]
  | succ k ih =>
      intro n m j hmax hd hk
      obtain ⟨n', rfl⟩ : ∃ n', n = n' + 1 := ⟨n - 1, by omega⟩
      rw [List.replicate_succ]
      show ((m.connect_iteration AttemptOutcome.openFailed).1 ::
        ((m.connect_iteration
          AttemptOutcome.openFailed).2.connect_sleeps
            (List.replicate n' AttemptOutcome.openFailed)))[k + 1]? = _
      rw [List.getElem?_cons_succ]
      have hmax' : (m.connect_iteration AttemptOutcome.openFailed).2.max_reconnect_delay
          = 30 := hmax
      have hd' : (m.connect_iteration AttemptOutcome.openFailed).2.reconnect_delay =
          min ((2 : ℚ) ^ (j + 1)) 30 := by
        show min (m.reconnect_delay * 2) m.max_reconnect_delay = _
        rw [hd, hmax, min_double_cap]
      have := ih n' (m.connect_iteration AttemptOutcome.openFailed).2 (j + 1) hmax' hd'
        (by omega)
      rw [this]
      have hexp : j + 1 + k = j + (k + 1) := by omega
      rw [hexp]

/-- Claim C3: starting the supervisor loop with cap 30, an uninterrupted run
of connection failures sleeps 1, 2, 4, 8, 16, 30, 30, 30, … — the k-th sleep
is `min (2^k) 30`, the delay doubling after each failure and capped at the
configured maximum — and an attempt that does establish a connection resets
the delay, so the failure that ends it sleeps 1 and the delay continues from
2. -/
theorem c3_reconnect_backoff (m : XRPLConnectionManager)
    (hmax : m.max_reconnect_delay = 30) :
    (m.connect_init.connect_sleeps (List.replicate 8 AttemptOutcome.openFailed) =
      [1, 2, 4, 8, 16, 30, 30, 30]) ∧
    (∀ n k, k < n →
      (m.connect_init.connect_sleeps (List.replicate n AttemptOutcome.openFailed))[k]? =
        some (min ((2 : ℚ) ^ k) 30)) ∧
    (∀ (m' : XRPLConnectionManager) (rest : List AttemptOutcome),
      m'.max_reconnect_delay = 30 →
      m'.connect_sleeps (AttemptOutcome.establishedThenLost :: rest) =
        1 :: (m'.connect_iteration AttemptOutcome.establishedThenLost).2.connect_sleeps
          rest ∧
      (m'.connect_iteration AttemptOutcome.establishedThenLost).2.reconnect_delay = 2) := by
  have hinit : m.connect_init.max_reconnect_delay = 30 := hmax
  have hdelay : m.connect_init.reconnect_delay = min ((2 : ℚ) ^ 0) 30 := by
    show (1 : ℚ) = min ((2 : ℚ) ^ 0) 30
    norm_num
  refine ⟨?_, ?_, ?_⟩
  · have h8 := fun k hk => connect_sleeps_formula k 8 m.connect_init 0 hinit hdelay hk
    have hlen : (m.connect_init.connect_sleeps
        (List.replicate 8 AttemptOutcome.openFailed)).length = 8 := by
      have : ∀ (l : List AttemptOutcome) (mm : XRPLConnectionManager),
          (mm.connect_sleeps l).length = l.length := by
        intro l
        induction l with
        | nil => intro mm; rfl
        | cons o rest ih =>
            intro mm
            simp [XRPLConnectionManager.connect_sleeps, ih]
      simp [this]
    apply List.ext_getElem?
    intro k
    by_cases hk : k < 8
    · rw [h8 k hk]
      interval_cases k <;> norm_num [min_def]
    · have h1 : (m.connect_init.connect_sleeps
          (List.replicate 8 AttemptOutcome.openFailed))[k]? = none :=
        List.getElem?_eq_none (by rw [hlen]; omega)
      have h2 : ([1, 2, 4, 8, 16, 30, 30, 30] : List ℚ)[k]? = none :=
        List.getElem?_eq_none (by simp; omega)
      rw [h1, h2]
  · intro n k hk
    simpa using connect_sleeps_formula k n m.connect_init 0 hinit hdelay hk
  · intro m' rest hmax'
    constructor
    · rfl
    · show min ((1 : ℚ) * 2) m'.max_reconnect_delay = 2
      rw [hmax']
      norm_num

/-- Witness for C3 at the default manager (cap 30): the first eight sleeps and
the sleep/reset after an established-then-lost connection. -/
theorem c3_reconnect_backoff_witness :
    (defaultConnectionManager.connect_init.connect_sleeps
      (List.replicate 8 AttemptOutcome.openFailed) = [1, 2, 4, 8, 16, 30, 30, 30]) ∧
    ((defaultConnectionManager.connect_init.connect_sleeps
      (List.replicate 6 AttemptOutcome.openFailed))[5]? = some (min ((2 : ℚ) ^ 5) 30)) ∧
    ((defaultConnectionManager.connect_iteration
      AttemptOutcome.establishedThenLost).2.reconnect_delay = 2) :=
  ⟨(c3_reconnect_backoff defaultConnectionManager rfl).1,
   (c3_reconnect_backoff defaultConnectionManager rfl).2.1 6 5 (by norm_num),
   ((c3_reconnect_backoff defaultConnectionManager rfl).2.2 defaultConnectionManager []
     rfl).2⟩

/-- Subscribing one fresh address over an open transport sends exactly one
replay-tracked `Subscribe(accounts=[A])` and records the address. -/
theorem subscribe_accounts_fresh (m : SubscriptionManager) (A : String)
    (hopen : m.connection.client_open = true) (hA : A ∉ m.subscribed_accounts) :
    m.subscribe_accounts [A] =
      ({ m with
          connection := { m.connection with
            pending_subscriptions :=
              m.connection.pending_subscriptions ++ [Request.subscribe [] [A]]
            transport_sent :=
              m.connection.transport_sent ++ [Request.subscribe [] [A]] }
          subscribed_accounts := m.subscribed_accounts ++ [A] }, Except.ok ()) := by
  simp [SubscriptionManager.subscribe_accounts, XRPLConnectionManager.send,
    XRPLConnectionManager.is_connected, hopen, hA]

/-- `unsubscribe_account` never touches the supervisor's replay list and
leaves the transport open-state as it was. -/
theorem unsubscribe_account_pending (m : SubscriptionManager) (address : String) :
    ((m.unsubscribe_account address).1).connection.pending_subscriptions =
      m.connection.pending_subscriptions ∧
    ((m.unsubscribe_account address).1).connection.client_open =
      m.connection.client_open := by
  by_cases hmem : address ∉ m.subscribed_accounts
  · simp [SubscriptionManager.unsubscribe_account, hmem]
  · by_cases hopen : m.connection.client_open
    · simp [SubscriptionManager.unsubscribe_account, hmem, XRPLConnectionManager.send,
        XRPLConnectionManager.is_connected, hopen]
    · simp [SubscriptionManager.unsubscribe_account, hmem, XRPLConnectionManager.send,
        XRPLConnectionManager.is_connected, hopen]

/-- `unsubscribe_stream` never touches the supervisor's replay list. -/
theorem unsubscribe_stream_pending (m : SubscriptionManager)
    (stream : StreamParameter) :
    ((m.unsubscribe_stream stream).1).connection.pending_subscriptions =
      m.connection.pending_subscriptions := by
  by_cases hmem : stream ∉ m.subscribed_streams
  · simp [SubscriptionManager.unsubscribe_stream, hmem]
  · by_cases hopen : m.connection.client_open
    · simp [SubscriptionManager.unsubscribe_stream, hmem, XRPLConnectionManager.send,
        XRPLConnectionManager.is_connected, hopen]
    · simp [SubscriptionManager.unsubscribe_stream, hmem, XRPLConnectionManager.send,
        XRPLConnectionManager.is_connected, hopen]

/-- Folding the replay list through an open transport resends every remembered
request, in order, and leaves the transport open. -/
theorem restore_foldl (l : List Request) (c : XRPLConnectionManager)
    (hopen : c.client_open = true) :
    ((l.foldl (fun acc r =>
        if acc.client_open then { acc with transport_sent := acc.transport_sent ++ [r] }
        else acc) c).transport_sent = c.transport_sent ++ l) ∧
    ((l.foldl (fun acc r =>
        if acc.client_open then { acc with transport_sent := acc.transport_sent ++ [r] }
        else acc) c).client_open = true) := by
  induction l generalizing c with
  | nil => simpa using hopen
  | cons r rest ih =>
      rw [List.foldl_cons, if_pos hopen]
      have := ih { c with transport_sent := c.transport_sent ++ [r] } hopen
      refine ⟨?_, this.2⟩
      rw [this.1]
      simp

/-- Claim C4: subscribing is idempotent — a call covering only
already-subscribed accounts (or an already-subscribed stream) issues no
network call and leaves the tracker, the replay list and everything else
unchanged — and `subscribe_accounts` on `[A]` then `[A, B]` over an open
transport issues exactly two subscribe requests, the second carrying only the
newly added `B`, both appended to the replay list. -/
theorem c4_subscribe_idempotent_and_delta :
    (∀ (m : SubscriptionManager) (addresses : List String),
      (∀ a ∈ addresses, a ∈ m.subscribed_accounts) →
      m.subscribe_accounts addresses = (m, Except.ok ())) ∧
    (∀ (m : SubscriptionManager) (stream : StreamParameter),
      stream ∈ m.subscribed_streams →
      m.subscribe_stream stream = (m, Except.ok ())) ∧
    (∀ (m : SubscriptionManager) (A B : String),
      m.connection.client_open = true → A ∉ m.subscribed_accounts →
      B ∉ m.subscribed_accounts → B ≠ A →
      ((m.subscribe_accounts [A]).1.subscribe_accounts
          [A, B]).1.connection.transport_sent =
        m.connection.transport_sent ++
          [Request.subscribe [] [A], Request.subscribe [] [B]] ∧
      ((m.subscribe_accounts [A]).1.subscribe_accounts
          [A, B]).1.connection.pending_subscriptions =
        m.connection.pending_subscriptions ++
          [Request.subscribe [] [A], Request.subscribe [] [B]]) := by
  refine ⟨?_, ?_, ?_⟩
  · intro m addresses hall
    have hfilter : addresses.filter (fun addr => addr ∉ m.subscribed_accounts) = [] := by
      rw [List.filter_eq_nil_iff]
      intro a ha
      simpa using hall a ha
    simp only [SubscriptionManager.subscribe_accounts]
    rw [hfilter]
    rfl
  · intro m stream hmem
    simp [SubscriptionManager.subscribe_stream, hmem]
  · intro m A B hopen hA hB hBA
    rw [subscribe_accounts_fresh m A hopen hA]
    constructor <;>
      simp [SubscriptionManager.subscribe_accounts, XRPLConnectionManager.send,
        XRPLConnectionManager.is_connected, hopen, hA, hB, hBA]

/-- An open connected manager (for concrete witnesses). -/
def connectedManager : XRPLConnectionManager :=
  { defaultConnectionManager with
    client_open := true
    state := ConnectionState.connected }

/-- A subscription tracker over the open manager with nothing subscribed yet. -/
def emptySubscriptionManager : SubscriptionManager :=
  { connection := connectedManager
    subscribed_streams := []
    subscribed_accounts := [] }

/-- Witness for C4: concrete double subscription of "rA" then "rA"/"rB". -/
theorem c4_subscribe_idempotent_and_delta_witness :
    (emptySubscriptionManager.connection.client_open = true ∧
      "rA" ∉ emptySubscriptionManager.subscribed_accounts ∧
      "rB" ∉ emptySubscriptionManager.subscribed_accounts ∧ "rB" ≠ "rA") ∧
    ((emptySubscriptionManager.subscribe_accounts ["rA"]).1.subscribe_accounts
        ["rA", "rB"]).1.connection.transport_sent =
      [Request.subscribe [] ["rA"], Request.subscribe [] ["rB"]] ∧
    ((emptySubscriptionManager.subscribe_accounts ["rA"]).1.subscribe_accounts
        ["rA", "rB"]).1.connection.pending_subscriptions =
      [Request.subscribe [] ["rA"], Request.subscribe [] ["rB"]] := by
  have h := (c4_subscribe_idempotent_and_delta.2.2 emptySubscriptionManager "rA" "rB"
    rfl (by decide) (by decide) (by decide))
  exact ⟨⟨rfl, by decide, by decide, by decide⟩, h.1, h.2⟩

/-- Claim C10: `unsubscribe_stream` and `unsubscribe_account` remove the entry
locally and send an Unsubscribe, but never touch the supervisor's replay list;
only `unsubscribe_all` clears it (here over an open transport, where its sends
succeed); and `restore_subscriptions` over an open transport resends every
replayed request — so a subscription made for replay and later individually
unsubscribed is still reissued after a reconnect. -/
theorem c10_unsubscribe_keeps_replay :
    (∀ (m : SubscriptionManager) (address : String),
      ((m.unsubscribe_account address).1).connection.pending_subscriptions =
        m.connection.pending_subscriptions) ∧
    (∀ (m : SubscriptionManager) (stream : StreamParameter),
      ((m.unsubscribe_stream stream).1).connection.pending_subscriptions =
        m.connection.pending_subscriptions) ∧
    (∀ m : SubscriptionManager, m.connection.client_open = true →
      ((m.unsubscribe_all).1).connection.pending_subscriptions = []) ∧
    (∀ c : XRPLConnectionManager, c.client_open = true →
      c.restore_subscriptions.transport_sent =
        c.transport_sent ++ c.pending_subscriptions) ∧
    (∀ (m : SubscriptionManager) (A : String),
      m.connection.client_open = true → A ∉ m.subscribed_accounts →
      Request.subscribe [] [A] ∈
        (((m.subscribe_accounts [A]).1.unsubscribe_account
          A).1).connection.pending_subscriptions ∧
      Request.subscribe [] [A] ∈
        ((((m.subscribe_accounts [A]).1.unsubscribe_account
          A).1).connection.restore_subscriptions).transport_sent) := by
  refine ⟨?_, ?_, ?_, ?_, ?_⟩
  · intro m address
    exact (unsubscribe_account_pending m address).1
  · intro m stream
    exact unsubscribe_stream_pending m stream
  · intro m hopen
    by_cases hs : m.subscribed_streams.isEmpty <;>
      by_cases ha : m.subscribed_accounts.isEmpty <;>
        simp [SubscriptionManager.unsubscribe_all, XRPLConnectionManager.send,
          XRPLConnectionManager.is_connected, XRPLConnectionManager.clear_subscriptions,
          hopen, hs, ha]
  · intro c hopen
    exact (restore_foldl c.pending_subscriptions c hopen).1
  · intro m A hopen hA
    have hpend :
        (((m.subscribe_accounts [A]).1.unsubscribe_account
          A).1).connection.pending_subscriptions =
          m.connection.pending_subscriptions ++ [Request.subscribe [] [A]] := by
      rw [(unsubscribe_account_pending (m.subscribe_accounts [A]).1 A).1,
        subscribe_accounts_fresh m A hopen hA]
    have hopen2 :
        (((m.subscribe_accounts [A]).1.unsubscribe_account
          A).1).connection.client_open = true := by
      rw [(unsubscribe_account_pending (m.subscribe_accounts [A]).1 A).2,
        subscribe_accounts_fresh m A hopen hA]
      exact hopen
    have hmem : Request.subscribe [] [A] ∈
        (((m.subscribe_accounts [A]).1.unsubscribe_account
          A).1).connection.pending_subscriptions := by
      rw [hpend]
      simp
    refine ⟨hmem, ?_⟩
    unfold XRPLConnectionManager.restore_subscriptions
    rw [(restore_foldl
      ((((m.subscribe_accounts [A]).1.unsubscribe_account
        A).1).connection.pending_subscriptions)
      ((((m.subscribe_accounts [A]).1.unsubscribe_account A).1).connection)
      hopen2).1]
    exact List.mem_append_right _ hmem

/-- Witness for C10: subscribe "rA" for replay, then unsubscribe it; the
Subscribe request is still in the replay list and is resent by restore. -/
theorem c10_unsubscribe_keeps_replay_witness :
    (emptySubscriptionManager.connection.client_open = true ∧
      "rA" ∉ emptySubscriptionManager.subscribed_accounts) ∧
    Request.subscribe [] ["rA"] ∈
      (((emptySubscriptionManager.subscribe_accounts ["rA"]).1.unsubscribe_account
        "rA").1).connection.pending_subscriptions ∧
    Request.subscribe [] ["rA"] ∈
      ((((emptySubscriptionManager.subscribe_accounts ["rA"]).1.unsubscribe_account
        "rA").1).connection.restore_subscriptions).transport_sent := by
  have h := c10_unsubscribe_keeps_replay.2.2.2.2 emptySubscriptionManager "rA" rfl
    (by decide)
  exact ⟨⟨rfl, by decide⟩, h.1, h.2⟩

/-- Moving the first pending record matching hash h into (a sublist of) the
record-augmented recent list preserves per-hash uniqueness of the store's
keys, provided the moved copy keeps its hash. -/
theorem txKeys_move_nodup (pending recent newrecent : List TransactionState)
    (h : String) (tx tx' : TransactionState)
    (hfind : pending.find? (fun t => t.tx_hash == h) = some tx)
    (hhash : tx'.tx_hash = tx.tx_hash)
    (hsub : List.Sublist newrecent (tx' :: recent))
    (hnd : ((pending ++ recent).map TransactionState.tx_hash).Nodup) :
    (((pending.eraseP (fun t => t.tx_hash == h)) ++ newrecent).map
      TransactionState.tx_hash).Nodup := by
  have htx_mem : tx ∈ pending := List.mem_of_find?_eq_some hfind
  have htx_p : (fun t : TransactionState => t.tx_hash == h) tx = true :=
    @List.find?_some TransactionState (fun t => t.tx_hash == h) tx pending hfind
  obtain ⟨a, l₁, l₂, hno, hpa, hdecomp, herase⟩ :=
    @List.exists_of_eraseP TransactionState (fun t => t.tx_hash == h) pending tx
      htx_mem htx_p
  rw [herase]
  have hbigsub : List.Sublist ((l₁ ++ l₂) ++ newrecent) ((l₁ ++ l₂) ++ (tx' :: recent)) :=
    hsub.append_left (l₁ ++ l₂)
  have hperm2 : List.Perm ((l₁ ++ l₂) ++ (tx' :: recent)) (tx' :: ((l₁ ++ l₂) ++ recent)) :=
    List.perm_middle
  have hperm1 : List.Perm (pending ++ recent) (a :: (l₁ ++ (l₂ ++ recent))) := by
    rw [hdecomp, List.append_assoc, List.cons_append]
    exact List.perm_middle
  have hnd1 := (hperm1.map TransactionState.tx_hash).nodup hnd
  rw [List.map_cons, List.nodup_cons] at hnd1
  obtain ⟨hnotin, htail⟩ := hnd1
  have hfa : a.tx_hash = h := by simpa using hpa
  have hftx : tx.tx_hash = h := by simpa using htx_p
  have hbig : ((( l₁ ++ l₂) ++ (tx' :: recent)).map TransactionState.tx_hash).Nodup := by
    refine (hperm2.map TransactionState.tx_hash).symm.nodup ?_
    rw [List.map_cons, List.nodup_cons]
    constructor
    · rw [hhash, hftx]
      rw [hfa] at hnotin
      exact fun hmem => hnotin (by rwa [List.append_assoc] at hmem)
    · rw [← List.append_assoc] at htail
      exact htail
  exact hbig.sublist (hbigsub.map TransactionState.tx_hash)

/-- `mark_transaction_validated` preserves per-hash uniqueness. -/
theorem txKeys_mark_validated (s : XRPLStateStore) (h : String) (idx : Int)
    (hnd : (txKeys s).Nodup) :
    (txKeys (s.mark_transaction_validated h idx)).Nodup := by
  cases hfind : s.pending_transactions.find? (fun t => t.tx_hash == h) with
  | none =>
      have heq : s.mark_transaction_validated h idx = s := by
        simp [XRPLStateStore.mark_transaction_validated, hfind]
      rw [heq]
      exact hnd
  | some tx =>
      have hsub : List.Sublist (s.mark_transaction_validated h idx).recent_transactions
          (tx.mark_validated idx :: s.recent_transactions) := by
        simp only [XRPLStateStore.mark_transaction_validated, hfind]
        split
        · exact List.take_sublist _ _
        · exact List.Sublist.refl _
      have hpend : (s.mark_transaction_validated h idx).pending_transactions =
          s.pending_transactions.eraseP (fun t => t.tx_hash == h) := by
        simp [XRPLStateStore.mark_transaction_validated, hfind]
      unfold txKeys at hnd ⊢
      rw [hpend]
      exact txKeys_move_nodup s.pending_transactions s.recent_transactions
        (s.mark_transaction_validated h idx).recent_transactions h tx
        (tx.mark_validated idx) hfind rfl hsub hnd

/-- `mark_transaction_failed` preserves per-hash uniqueness. -/
theorem txKeys_mark_failed (s : XRPLStateStore) (h err : String)
    (hnd : (txKeys s).Nodup) :
    (txKeys (s.mark_transaction_failed h err)).Nodup := by
  cases hfind : s.pending_transactions.find? (fun t => t.tx_hash == h) with
  | none =>
      have heq : s.mark_transaction_failed h err = s := by
        simp [XRPLStateStore.mark_transaction_failed, hfind]
      rw [heq]
      exact hnd
  | some tx =>
      have hrec : (s.mark_transaction_failed h err).recent_transactions =
          tx.mark_failed err :: s.recent_transactions := by
        simp [XRPLStateStore.mark_transaction_failed, hfind]
      have hpend : (s.mark_transaction_failed h err).pending_transactions =
          s.pending_transactions.eraseP (fun t => t.tx_hash == h) := by
        simp [XRPLStateStore.mark_transaction_failed, hfind]
      unfold txKeys at hnd ⊢
      rw [hpend, hrec]
      exact txKeys_move_nodup s.pending_transactions s.recent_transactions
        (tx.mark_failed err :: s.recent_transactions) h tx (tx.mark_failed err) hfind
        rfl (List.Sublist.refl _) hnd

/-- `add_pending_transaction` with a hash not yet present preserves per-hash
uniqueness. -/
theorem txKeys_add_pending (s : XRPLStateStore) (h ty : String) (am : Option XRP)
    (src dst : String) (fee : Option XRP) (now : Nat)
    (hfresh : ∀ tx ∈ s.pending_transactions ++ s.recent_transactions, tx.tx_hash ≠ h)
    (hnd : (txKeys s).Nodup) :
    (txKeys (s.add_pending_transaction h ty am src dst fee now).1).Nodup := by
  unfold txKeys at hnd ⊢
  have hperm : List.Perm
      ((s.pending_transactions ++
        [(s.add_pending_transaction h ty am src dst fee now).2]) ++
        s.recent_transactions)
      ((s.add_pending_transaction h ty am src dst fee now).2 ::
        (s.pending_transactions ++ s.recent_transactions)) := by
    rw [List.append_assoc, List.singleton_append]
    exact List.perm_middle
  refine (hperm.map TransactionState.tx_hash).symm.nodup ?_
  rw [List.map_cons, List.nodup_cons]
  refine ⟨?_, hnd⟩
  intro hmem
  obtain ⟨x, hx, hxh⟩ := List.mem_map.mp hmem
  exact hfresh x hx hxh

/-- `add_received_transaction` with a hash not yet present preserves per-hash
uniqueness. -/
theorem txKeys_add_received (s : XRPLStateStore) (h ty : String) (idx : Int)
    (am : Option XRP) (src dst : String) (fee : Option XRP) (now : Nat)
    (hfresh : ∀ tx ∈ s.pending_transactions ++ s.recent_transactions, tx.tx_hash ≠ h)
    (hnd : (txKeys s).Nodup) :
    (txKeys (s.add_received_transaction h ty idx am src dst fee now).1).Nodup := by
  have hsub : List.Sublist
      (s.add_received_transaction h ty idx am src dst fee now).1.recent_transactions
      ((s.add_received_transaction h ty idx am src dst fee now).2 ::
        s.recent_transactions) := by
    simp only [XRPLStateStore.add_received_transaction]
    split
    · exact List.take_sublist _ _
    · exact List.Sublist.refl _
  unfold txKeys at hnd ⊢
  have hbig : ((s.pending_transactions ++
      ((s.add_received_transaction h ty idx am src dst fee now).2 ::
        s.recent_transactions)).map TransactionState.tx_hash).Nodup := by
    have hperm : List.Perm
        (s.pending_transactions ++
          ((s.add_received_transaction h ty idx am src dst fee now).2 ::
            s.recent_transactions))
        ((s.add_received_transaction h ty idx am src dst fee now).2 ::
          (s.pending_transactions ++ s.recent_transactions)) := List.perm_middle
    refine (hperm.map TransactionState.tx_hash).symm.nodup ?_
    rw [List.map_cons, List.nodup_cons]
    refine ⟨?_, hnd⟩
    intro hmem
    obtain ⟨x, hx, hxh⟩ := List.mem_map.mp hmem
    exact hfresh x hx hxh
  exact hbig.sublist ((hsub.append_left s.pending_transactions).map
    TransactionState.tx_hash)

/-- Stores reachable from the default store through the public transaction
operations (the claim's own quantification, no side conditions). -/
inductive Reachable : XRPLStateStore → Prop where
  | init : Reachable emptyStore
  | add_pending (s : XRPLStateStore) (h ty : String) (am : Option XRP)
      (src dst : String) (fee : Option XRP) (now : Nat) :
      Reachable s → Reachable (s.add_pending_transaction h ty am src dst fee now).1
  | mark_validated (s : XRPLStateStore) (h : String) (idx : Int) :
      Reachable s → Reachable (s.mark_transaction_validated h idx)
  | mark_failed (s : XRPLStateStore) (h err : String) :
      Reachable s → Reachable (s.mark_transaction_failed h err)
  | add_received (s : XRPLStateStore) (h ty : String) (idx : Int) (am : Option XRP)
      (src dst : String) (fee : Option XRP) (now : Nat) :
      Reachable s → Reachable (s.add_received_transaction h ty idx am src dst fee now).1

/-- Stores reachable through the public transaction operations where every
`add_*` call brings a hash not already present in the store (as genuine
ledger transaction hashes do). -/
inductive ReachableUnique : XRPLStateStore → Prop where
  | init : ReachableUnique emptyStore
  | add_pending (s : XRPLStateStore) (h ty : String) (am : Option XRP)
      (src dst : String) (fee : Option XRP) (now : Nat) :
      ReachableUnique s →
      (∀ tx ∈ s.pending_transactions ++ s.recent_transactions, tx.tx_hash ≠ h) →
      ReachableUnique (s.add_pending_transaction h ty am src dst fee now).1
  | mark_validated (s : XRPLStateStore) (h : String) (idx : Int) :
      ReachableUnique s → ReachableUnique (s.mark_transaction_validated h idx)
  | mark_failed (s : XRPLStateStore) (h err : String) :
      ReachableUnique s → ReachableUnique (s.mark_transaction_failed h err)
  | add_received (s : XRPLStateStore) (h ty : String) (idx : Int) (am : Option XRP)
      (src dst : String) (fee : Option XRP) (now : Nat) :
      ReachableUnique s →
      (∀ tx ∈ s.pending_transactions ++ s.recent_transactions, tx.tx_hash ≠ h) →
      ReachableUnique (s.add_received_transaction h ty idx am src dst fee now).1

/-- Claim C8 (amended): along every operation sequence in which each added
transaction carries a hash not already present, at most one record per hash
exists across the pending set and recent-history — the store's key list has
no duplicates. (The mark operations need no side condition; only the two add
operations do, since the code never deduplicates hashes itself.) -/
theorem c8_per_hash_uniqueness (s : XRPLStateStore) (hr : ReachableUnique s) :
    (txKeys s).Nodup := by
  induction hr with
  | init => simp [txKeys, emptyStore]
  | add_pending s h ty am src dst fee now _ hfresh ih =>
      exact txKeys_add_pending s h ty am src dst fee now hfresh ih
  | mark_validated s h idx _ ih => exact txKeys_mark_validated s h idx ih
  | mark_failed s h err _ ih => exact txKeys_mark_failed s h err ih
  | add_received s h ty idx am src dst fee now _ hfresh ih =>
      exact txKeys_add_received s h ty idx am src dst fee now hfresh ih

/-- Witness for C8 at a concrete freshly-reachable store. -/
theorem c8_per_hash_uniqueness_witness :
    ReachableUnique
      ((emptyStore.add_pending_transaction "A" "Payment" none "" "" none 0).1) ∧
    (txKeys
      ((emptyStore.add_pending_transaction "A" "Payment" none "" "" none 0).1)).Nodup := by
  have hr : ReachableUnique
      ((emptyStore.add_pending_transaction "A" "Payment" none "" "" none 0).1) :=
    ReachableUnique.add_pending emptyStore "A" "Payment" none "" "" none 0
      ReachableUnique.init (by decide)
  exact ⟨hr, c8_per_hash_uniqueness _ hr⟩

/-- Claim C8, counterexample: the claim quantifies over every sequence of the
public operations, but nothing deduplicates hashes — two
`add_pending_transaction` calls with hash "A" reach a store holding two
records with the same hash. -/
theorem c8_counterexample :
    Reachable (((emptyStore.add_pending_transaction "A" "Payment" none "" "" none
      0).1.add_pending_transaction "A" "Payment" none "" "" none 0).1) ∧
    ¬ (txKeys (((emptyStore.add_pending_transaction "A" "Payment" none "" "" none
      0).1.add_pending_transaction "A" "Payment" none "" "" none 0).1)).Nodup ∧
    (txKeys (((emptyStore.add_pending_transaction "A" "Payment" none "" "" none
      0).1.add_pending_transaction "A" "Payment" none "" "" none
      0).1)).count "A" = 2 :=
  ⟨Reachable.add_pending _ "A" "Payment" none "" "" none 0
    (Reachable.add_pending _ "A" "Payment" none "" "" none 0 Reachable.init),
   by decide, by decide⟩
